import Mathlib

/-!
Verification development for the trajectory data/derivative engine of the
jaw_tracking_system repository.  The engine itself lives in the helper
module `jts/helper.py`, which is not among the available sources; its data
model and operations are therefore modelled faithfully from the system
specification (sections 3, 4, 6, 7, 8).  The example script
`examples/hdf5_analysis_example.py` is available and its `main` control
flow is embedded directly from the source.
-/

open Real

noncomputable section

/-- Real 3-vector, used for translations, Euler angle triples and
vector-valued derivatives. -/
abbrev Vec3 : Type := Fin 3 → ℝ

/-- Real 3 by 3 matrix, used for rotation submatrices. -/
abbrev Mat3 : Type := Matrix (Fin 3) (Fin 3) ℝ

/-- Modelled from the spec (section 3, `TransformationSequence`): one sampled
rigid-body pose.  A pose is a 4 by 4 rigid transformation, represented here
by its rotation submatrix together with its translation vector, which carry
exactly the information of the 4 by 4 matrix. -/
structure Pose where
  rot : Mat3
  trans : Vec3

/-- Modelled from the spec (section 3): a loaded trajectory group.  It holds
the ordered pose sequence, the `sample_rate` and `unit` attributes, and the
`DerivativeSet`: a mapping from derivative field name to array, kept as an
association list so that unrecognized keys are retained verbatim. -/
structure TransformationSequence where
  poses : List Pose
  sampleRate : ℝ
  unit : String
  derivatives : List (String × List Vec3)

/-- Convenience projection of the translation vectors (spec section 3:
`translations` is an N by 3 array view of the pose sequence). -/
def TransformationSequence.translations (s : TransformationSequence) : List Vec3 :=
  s.poses.map Pose.trans

/-- Convenience projection of the rotation submatrices (spec section 3:
`rotations` view of the pose sequence). -/
def TransformationSequence.rotations (s : TransformationSequence) : List Mat3 :=
  s.poses.map Pose.rot

/-- Modelled from the spec (sections 3, 4.3): the static alias lookup table.
Canonical derivative names map to themselves, the legacy aliases `velocity`,
`acceleration`, `rotational_velocity`, `rotational_acceleration` map to their
canonical counterparts, and every other key is unrecognized. -/
def canonicalName : String → Option String
  | "translational_velocity" => some "translational_velocity"
  | "velocity" => some "translational_velocity"
  | "translational_acceleration" => some "translational_acceleration"
  | "acceleration" => some "translational_acceleration"
  | "angular_velocity" => some "angular_velocity"
  | "rotational_velocity" => some "angular_velocity"
  | "angular_acceleration" => some "angular_acceleration"
  | "rotational_acceleration" => some "angular_acceleration"
  | _ => none

/-- Modelled from the spec (section 4.3): look up a canonical derivative slot
in a `DerivativeSet`.  A stored field matches when its key resolves, through
the alias table, to the requested canonical name, so canonical and aliased
stored fields are found alike. -/
def lookupStored (ds : List (String × List Vec3)) (c : String) : Option (List Vec3) :=
  (ds.find? (fun kv => canonicalName kv.1 = some c)).map Prod.snd

/-- Modelled from the spec (section 4.3): length-preserving finite
differencing of a sampled vector signal over time step `dt`.  Interior
samples use the central difference `(p[i+1] - p[i-1]) / (2*dt)`; the first
and last samples use one-sided differences of the same (second) order, so
the output length equals the input length.  With fewer than three samples a
same-order one-sided stencil does not exist, so the two-sample case falls
back to the first-order one-sided difference, and fewer than two samples
degrade to zeros. -/
def finiteDiff (ps : List Vec3) (dt : ℝ) : List Vec3 :=
  let n := ps.length
  let g := fun i => ps.getD i 0
  if n < 2 then List.replicate n 0
  else
    (List.range n).map fun i =>
      if i = 0 then
        if n = 2 then (1 / dt) • (g 1 - g 0)
        else (1 / (2 * dt)) • ((-3 : ℝ) • g 0 + (4 : ℝ) • g 1 - g 2)
      else if i = n - 1 then
        if n = 2 then (1 / dt) • (g (n - 1) - g (n - 2))
        else (1 / (2 * dt)) • ((3 : ℝ) • g (n - 1) - (4 : ℝ) • g (n - 2) + g (n - 3))
      else (1 / (2 * dt)) • (g (i + 1) - g (i - 1))

/-- Modelled from the spec (section 4.3 and glossary): the rotation-vector
(axis-angle, logarithm-of-rotation) representation of a rotation matrix.
The rotation angle comes from the trace and the axis from the skew part;
a zero angle yields the zero vector. -/
def rotLog (R : Mat3) : Vec3 :=
  let θ := Real.arccos ((Matrix.trace R - 1) / 2)
  if θ = 0 then 0
  else (θ / (2 * Real.sin θ)) • ![R 2 1 - R 1 2, R 0 2 - R 2 0, R 1 0 - R 0 1]

/-- Modelled from the spec (section 4.3): translational velocity is the
finite difference of `translations` over `dt = 1 / sample_rate`. -/
def translationalVelocity (s : TransformationSequence) : List Vec3 :=
  finiteDiff s.translations (1 / s.sampleRate)

/-- Modelled from the spec (section 4.3): translational acceleration applies
the same finite-difference scheme to the velocity sequence. -/
def translationalAcceleration (s : TransformationSequence) : List Vec3 :=
  finiteDiff (translationalVelocity s) (1 / s.sampleRate)

/-- Modelled from the spec (section 4.3): angular velocity is computed from
the relative rotation between consecutive orientations,
`R_rel = R[i]^T * R[i+1]`, converted to the rotation-vector representation
and scaled by `sample_rate`; the final boundary frame uses the adjacent
single-sided relative rotation.  Fewer than two samples degrade to zeros. -/
def angularVelocity (s : TransformationSequence) : List Vec3 :=
  let n := s.poses.length
  let R := fun i => s.rotations.getD i 1
  if n < 2 then List.replicate n 0
  else
    (List.range n).map fun i =>
      if i + 1 < n then s.sampleRate • rotLog ((R i).transpose * R (i + 1))
      else s.sampleRate • rotLog ((R (n - 2)).transpose * R (n - 1))

/-- Modelled from the spec (section 4.3): angular acceleration is the finite
difference of the angular-velocity sequence, with the same boundary policy
as translational acceleration. -/
def angularAcceleration (s : TransformationSequence) : List Vec3 :=
  finiteDiff (angularVelocity s) (1 / s.sampleRate)

/-- Error raised by the derivative engine for an unrecognized kind
(spec section 7, `UnsupportedDerivativeError`). -/
inductive DeriveError where
  | unsupportedDerivative
deriving DecidableEq

/-- Modelled from the spec (section 4.3): dispatch of on-demand computation
by canonical derivative name. -/
def computeDerivative (s : TransformationSequence) (c : String) : List Vec3 :=
  if c = "translational_velocity" then translationalVelocity s
  else if c = "translational_acceleration" then translationalAcceleration s
  else if c = "angular_velocity" then angularVelocity s
  else angularAcceleration s

/-- Modelled from the spec (section 4.3): `derive(sequence, kind,
prefer_stored)`.  An unrecognized kind fails with
`UnsupportedDerivativeError`; when `prefer_stored` holds and the canonical
or aliased field exists in the `DerivativeSet` it is returned unchanged;
otherwise the derivative is computed on demand. -/
def derive (s : TransformationSequence) (kind : String) (preferStored : Bool) :
    Except DeriveError (List Vec3) :=
  match canonicalName kind with
  | none => .error .unsupportedDerivative
  | some c =>
    match preferStored, lookupStored s.derivatives c with
    | true, some arr => .ok arr
    | true, none => .ok (computeDerivative s c)
    | false, _ => .ok (computeDerivative s c)

/-- Modelled from the spec (sections 4.2, 6): a unit quaternion stored in the
quaternion+translation native form. -/
structure Quat where
  w : ℝ
  x : ℝ
  y : ℝ
  z : ℝ

/-- Modelled from the spec (section 4.2): the rotation matrix of a unit
quaternion, used when the loader normalizes the quaternion+translation
storage form to matrices. -/
def quatToMat (q : Quat) : Mat3 :=
  Matrix.of
    ![![1 - 2 * (q.y ^ 2 + q.z ^ 2), 2 * (q.x * q.y - q.w * q.z), 2 * (q.x * q.z + q.w * q.y)],
      ![2 * (q.x * q.y + q.w * q.z), 1 - 2 * (q.x ^ 2 + q.z ^ 2), 2 * (q.y * q.z - q.w * q.x)],
      ![2 * (q.x * q.z - q.w * q.y), 2 * (q.y * q.z + q.w * q.x), 1 - 2 * (q.x ^ 2 + q.y ^ 2)]]

/-- Modelled from the spec (section 8, round trip): reconstruction of the
quaternion native form from a rotation matrix, scalar part from the trace
and vector part from the skew entries. -/
def matToQuat (R : Mat3) : Quat :=
  ⟨Real.sqrt ((1 + Matrix.trace R) / 4),
    (R 2 1 - R 1 2) / (4 * Real.sqrt ((1 + Matrix.trace R) / 4)),
    (R 0 2 - R 2 0) / (4 * Real.sqrt ((1 + Matrix.trace R) / 4)),
    (R 1 0 - R 0 1) / (4 * Real.sqrt ((1 + Matrix.trace R) / 4))⟩

/-- Modelled from the spec (section 4.2): the rotation matrix of extrinsic
x-y-z Euler angles, the composition Rz(γ) * Ry(β) * Rx(α) written out
entrywise, used when the loader normalizes the Euler+translation storage
form to matrices. -/
def eulerToMat (α β γ : ℝ) : Mat3 :=
  Matrix.of
    ![![cos γ * cos β, cos γ * sin β * sin α - sin γ * cos α,
        cos γ * sin β * cos α + sin γ * sin α],
      ![sin γ * cos β, sin γ * sin β * sin α + cos γ * cos α,
        sin γ * sin β * cos α - cos γ * sin α],
      ![-sin β, cos β * sin α, cos β * cos α]]

/-- Two-argument arctangent: the angle in (-π, π] of the point (x, y). -/
def atan2 (y x : ℝ) : ℝ := Complex.arg ⟨x, y⟩

/-- Modelled from the spec (sections 4.4, 8): reconstruction of the Euler
native form (and the `rotations_euler` projection) from a rotation matrix. -/
def matToEuler (R : Mat3) : Vec3 :=
  ![atan2 (R 2 1) (R 2 2), Real.arcsin (-(R 2 0)), atan2 (R 1 0) (R 0 0)]

/-- Modelled from the spec (section 6): the native storage form of a group's
`transformations` dataset: 4 by 4 matrices, quaternion+translation, or
Euler+translation. -/
inductive StorageForm where
  | matrices (ps : List Pose)
  | quatTrans (qs : List (Quat × Vec3))
  | eulerTrans (es : List (Vec3 × Vec3))

/-- Modelled from the spec (section 4.2): normalization of any native
storage form to full rigid transformations, as performed by
`load(..., as_matrices=True)`. -/
def decodeStorage : StorageForm → List Pose
  | .matrices ps => ps
  | .quatTrans qs => qs.map fun qt => ⟨quatToMat qt.1, qt.2⟩
  | .eulerTrans es => es.map fun et => ⟨eulerToMat (et.1 0) (et.1 1) (et.1 2), et.2⟩

/-- Modelled from the spec (sections 3, 6): one persisted container group,
with its native-form `transformations` dataset, required attributes, and the
optional `derivatives` sub-mapping. -/
structure ContainerGroup where
  storage : StorageForm
  sampleRate : ℝ
  unit : String
  derivatives : Option (List (String × List Vec3))

/-- Modelled from the spec (section 4.2): assembling one container group
into a `TransformationSequence` with `as_matrices=True`.  A present
`derivatives` sub-mapping is loaded eagerly; an absent one yields an empty
(not absent) `DerivativeSet`. -/
def loadGroup (g : ContainerGroup) : TransformationSequence :=
  ⟨decodeStorage g.storage, g.sampleRate, g.unit, g.derivatives.getD []⟩

/-- A per-group component array selected by the comparator: vector-valued
(translations, Euler rotations, derivatives) or matrix-valued rotations. -/
inductive ComponentArray where
  | vecs (l : List Vec3)
  | mats (l : List Mat3)

/-- Error raised by the comparator when the requested component is absent
from every requested group (spec section 7, `ComponentUnavailableError`). -/
inductive CompareError where
  | componentUnavailable
deriving DecidableEq

/-- Modelled from the spec (section 4.4): resolution of a component name for
one group: first against the transformation projections `translations`,
`rotations_euler`, `rotations_matrix`, then against the derivative engine's
canonical/alias table over the group's stored `DerivativeSet`. -/
def groupComponent (s : TransformationSequence) (component : String) :
    Option ComponentArray :=
  if component = "translations" then some (.vecs s.translations)
  else if component = "rotations_euler" then some (.vecs (s.rotations.map matToEuler))
  else if component = "rotations_matrix" then some (.mats s.rotations)
  else
    match canonicalName component with
    | some c => (lookupStored s.derivatives c).map ComponentArray.vecs
    | none => none

/-- Modelled from the spec (section 4.4): `compare(loaded_groups, component,
group_names)`.  Each requested group is resolved independently; a group
lacking the component is omitted from the result; when no requested group
has it the call fails with `ComponentUnavailableError`.  Output preserves
the requested group order. -/
def compareComponent (groups : List (String × TransformationSequence))
    (component : String) (groupNames : List String) :
    Except CompareError (List (String × ComponentArray)) :=
  let found := groupNames.filterMap fun nm =>
    (groups.lookup nm).bind fun s =>
      (groupComponent s component).map fun a => (nm, a)
  if found.isEmpty then .error .componentUnavailable else .ok found

/-- Container operations the example script can invoke, in the order the
script's `main` reaches them (hdf5_analysis_example.py). -/
inductive ContainerOp where
  | inspect
  | load
  | visualize
  | compareCall (component : String)
deriving DecidableEq

/-- Outcome of a run of the example script's `main`. -/
inductive MainOutcome where
  | exitWith (code : Nat)
  | raisedIndexError
  | finished
deriving DecidableEq

/-- Result of a run of `main`: its outcome together with the container
operations it performed, in order. -/
structure MainResult where
  outcome : MainOutcome
  ops : List ContainerOp
deriving DecidableEq

/-- Environment of a run of `main`: the command-line argument vector
(element 0 is the script name), which paths exist on disk, and the group
mapping that `load_hdf5_transformations` returns for the given file. -/
structure MainEnv where
  argv : List String
  fileExists : String → Bool
  loaded : List (String × TransformationSequence)

/-- Embedding of `main` from examples/hdf5_analysis_example.py (lines
46-214).  With fewer than two argv entries, or a non-existent file path, it
exits with status 1 before any container operation.  Otherwise it inspects,
loads, prints per-group statistics, selects the first group with
`list(data.keys())[0]` (an unguarded IndexError when the mapping is empty),
visualizes it, and, when more than one group was loaded, compares
translations, Euler rotations, and, if the first group's `DerivativeSet`
has the exact keys, translational and angular velocity. -/
def mainRun (env : MainEnv) : MainResult :=
  if env.argv.length < 2 then ⟨.exitWith 1, []⟩
  else if env.fileExists (env.argv.getD 1 "") = false then ⟨.exitWith 1, []⟩
  else
    match env.loaded with
    | [] => ⟨.raisedIndexError, [.inspect, .load]⟩
    | (_, firstData) :: rest =>
      let ops0 := [ContainerOp.inspect, .load, .visualize]
      if rest.isEmpty then ⟨.finished, ops0⟩
      else
        let keys := firstData.derivatives.map Prod.fst
        let ops1 := ops0 ++ [.compareCall "translations", .compareCall "rotations_euler"]
        let ops2 :=
          if keys.contains "translational_velocity" then
            let ops3 := ops1 ++ [.compareCall "translational_velocity"]
            if keys.contains "angular_velocity" then
              ops3 ++ [.compareCall "angular_velocity"]
            else ops3
          else ops1
        ⟨.finished, ops2⟩

/-- Concrete one-pose sequence, used to instantiate hypotheses about short
sequences and recognized kinds. -/
def seqW1 : TransformationSequence := ⟨[⟨1, ![0, 0, 0]⟩], 100, "mm", []⟩

/-- Concrete environment with no path argument. -/
def envW9 : MainEnv := ⟨["hdf5_analysis_example.py"], fun _ => false, []⟩

/-- Concrete environment whose file exists but whose container holds zero
groups. -/
def envW10 : MainEnv := ⟨["hdf5_analysis_example.py", "motion.h5"], fun _ => true, []⟩

/-- Modelled from the spec (section 8, concrete scenario): a container group
`"session1"` with sample rate 100 Hz and three identity-rotation poses
translating (0,0,0) → (1,0,0) → (2,0,0) mm. -/
def session1Group : ContainerGroup :=
  ⟨.matrices [⟨1, ![0, 0, 0]⟩, ⟨1, ![1, 0, 0]⟩, ⟨1, ![2, 0, 0]⟩], 100, "mm", none⟩

/-- The `"session1"` group as assembled by the loader. -/
def session1 : TransformationSequence := loadGroup session1Group

/-- Concrete group with a stored angular-velocity derivative. -/
def groupA : TransformationSequence :=
  ⟨[⟨1, ![0, 0, 0]⟩, ⟨1, ![0, 0, 0]⟩], 100, "mm",
    [("angular_velocity", [![0, 0, 0], ![0, 0, 0]])]⟩

/-- Concrete group with an empty `DerivativeSet`. -/
def groupB : TransformationSequence :=
  ⟨[⟨1, ![0, 0, 0]⟩, ⟨1, ![0, 0, 0]⟩], 100, "mm", []⟩

/-- The loaded-group mapping holding `"A"` and `"B"`. -/
def demoGroups : List (String × TransformationSequence) :=
  [("A", groupA), ("B", groupB)]

/-- The finite-difference operator preserves the length of its input. -/
theorem finiteDiff_length (ps : List Vec3) (dt : ℝ) :
    (finiteDiff ps dt).length = ps.length := by
  unfold finiteDiff
  by_cases h : ps.length < 2
  · simp [h]
  · simp [h]

/-- The finite-difference operator degrades to zeros below two samples. -/
theorem finiteDiff_short (ps : List Vec3) (dt : ℝ) (h : ps.length < 2) :
    finiteDiff ps dt = List.replicate ps.length 0 := by
  unfold finiteDiff
  simp [h]

/-- The translations projection has one entry per pose. -/
theorem translations_length (s : TransformationSequence) :
    s.translations.length = s.poses.length := by
  simp [TransformationSequence.translations]

/-- The rotations projection has one entry per pose. -/
theorem rotations_length (s : TransformationSequence) :
    s.rotations.length = s.poses.length := by
  simp [TransformationSequence.rotations]

/-- Angular velocity has one entry per pose. -/
theorem angularVelocity_length (s : TransformationSequence) :
    (angularVelocity s).length = s.poses.length := by
  unfold angularVelocity
  by_cases h : s.poses.length < 2
  · simp [h]
  · simp [h]

/-- Every on-demand computed derivative has one entry per pose. -/
theorem computeDerivative_length (s : TransformationSequence) (c : String) :
    (computeDerivative s c).length = s.poses.length := by
  unfold computeDerivative translationalAcceleration translationalVelocity
    angularAcceleration
  split
  · rw [finiteDiff_length, translations_length]
  · split
    · rw [finiteDiff_length, finiteDiff_length, translations_length]
    · split
      · exact angularVelocity_length s
      · rw [finiteDiff_length, angularVelocity_length]

/-- C3: for every sequence of length N ≥ 1 and every recognized derivative
kind, the array computed by `derive` has length exactly N (boundary samples
are padded, never truncated). -/
theorem derive_length_invariant (s : TransformationSequence) (kind : String)
    (_h1 : 1 ≤ s.poses.length) (hk : (canonicalName kind).isSome) :
    ∃ a, derive s kind false = .ok a ∧ a.length = s.poses.length := by
  obtain ⟨c, hc⟩ := Option.isSome_iff_exists.mp hk
  refine ⟨computeDerivative s c, ?_, computeDerivative_length s c⟩
  unfold derive
  rw [hc]

/-- C4: for every sequence of length N < 2 and every recognized derivative
kind, `derive` does not raise and returns a length-N array of zeros. -/
theorem derive_short_sequence_zeros (s : TransformationSequence) (kind : String)
    (h : s.poses.length < 2) (hk : (canonicalName kind).isSome) :
    derive s kind false = .ok (List.replicate s.poses.length 0) := by
  obtain ⟨c, hc⟩ := Option.isSome_iff_exists.mp hk
  have hav : angularVelocity s = List.replicate s.poses.length 0 := by
    unfold angularVelocity
    simp [h]
  have hcompute : computeDerivative s c = List.replicate s.poses.length 0 := by
    unfold computeDerivative translationalAcceleration translationalVelocity
      angularAcceleration
    have htl : s.translations.length < 2 := by rw [translations_length]; exact h
    have hvl : finiteDiff s.translations (1 / s.sampleRate) =
        List.replicate s.poses.length 0 := by
      rw [finiteDiff_short _ _ htl, translations_length]
    have hrl : (List.replicate s.poses.length (0 : Vec3)).length < 2 := by
      rw [List.length_replicate]; exact h
    split
    · exact hvl
    · split
      · rw [hvl, finiteDiff_short _ _ hrl, List.length_replicate]
      · split
        · exact hav
        · rw [hav, finiteDiff_short _ _ hrl, List.length_replicate]
  unfold derive
  rw [hc]
  exact congrArg Except.ok hcompute

/-- Witness for C3 at a concrete one-pose sequence and kind. -/
theorem derive_length_invariant_witness :
    1 ≤ seqW1.poses.length ∧ (canonicalName "translational_velocity").isSome ∧
      ∃ a, derive seqW1 "translational_velocity" false = .ok a ∧
        a.length = seqW1.poses.length :=
  ⟨by decide, by decide,
    derive_length_invariant seqW1 "translational_velocity" (by decide) (by decide)⟩

/-- Witness for C4 at a concrete one-pose sequence and kind. -/
theorem derive_short_sequence_zeros_witness :
    seqW1.poses.length < 2 ∧ (canonicalName "angular_velocity").isSome ∧
      derive seqW1 "angular_velocity" false =
        .ok (List.replicate seqW1.poses.length 0) :=
  ⟨by decide, by decide,
    derive_short_sequence_zeros seqW1 "angular_velocity" (by decide) (by decide)⟩

/-- C6: querying each legacy alias returns the same result as querying its
canonical counterpart — alias resolution is a pure lookup into the same
canonical slot. -/
theorem derive_alias_equivalence (s : TransformationSequence) (b : Bool) :
    derive s "velocity" b = derive s "translational_velocity" b ∧
    derive s "acceleration" b = derive s "translational_acceleration" b ∧
    derive s "rotational_velocity" b = derive s "angular_velocity" b ∧
    derive s "rotational_acceleration" b = derive s "angular_acceleration" b :=
  ⟨rfl, rfl, rfl, rfl⟩

/-- C9: with fewer than two argv entries, or a path argument naming no
existing file, `main` exits with status 1 and performs no container
operation (no inspect, load, visualize or compare call is reached). -/
theorem mainRun_guard_exits_early (env : MainEnv)
    (h : env.argv.length < 2 ∨
      (2 ≤ env.argv.length ∧ env.fileExists (env.argv.getD 1 "") = false)) :
    mainRun env = ⟨.exitWith 1, []⟩ := by
  unfold mainRun
  rcases h with h | ⟨h2, hex⟩
  · rw [if_pos h]
  · rw [if_neg (by omega), if_pos hex]

/-- C10: when the file checks pass but the loader returns an empty group
mapping, `main` raises an unguarded IndexError selecting the first group,
after inspect and load succeeded and before any visualize or compare. -/
theorem mainRun_empty_container_index_error (env : MainEnv)
    (h2 : 2 ≤ env.argv.length) (hex : env.fileExists (env.argv.getD 1 "") = true)
    (hempty : env.loaded = []) :
    mainRun env = ⟨.raisedIndexError, [.inspect, .load]⟩ := by
  unfold mainRun
  rw [if_neg (by omega), if_neg (by rw [hex]; decide), hempty]

/-- Witness for C9 at a concrete argument vector with no path argument. -/
theorem mainRun_guard_exits_early_witness :
    envW9.argv.length < 2 ∧ mainRun envW9 = ⟨.exitWith 1, []⟩ :=
  ⟨by decide, mainRun_guard_exits_early envW9 (Or.inl (by decide))⟩

/-- Witness for C10 at a concrete environment with an empty container. -/
theorem mainRun_empty_container_index_error_witness :
    2 ≤ envW10.argv.length ∧ envW10.loaded = [] ∧
      mainRun envW10 = ⟨.raisedIndexError, [.inspect, .load]⟩ :=
  ⟨by decide, rfl, mainRun_empty_container_index_error envW10 (by decide) rfl rfl⟩

/-- The derivative engine computes on demand whenever the requested kind is
recognized and no stored canonical or aliased field exists. -/
theorem derive_of_not_stored (s : TransformationSequence) (kind c : String)
    (hc : canonicalName kind = some c) (hns : lookupStored s.derivatives c = none)
    (b : Bool) : derive s kind b = .ok (computeDerivative s c) := by
  cases b <;> simp [derive, hc, hns]

/-- Dispatch of the translational-velocity kind. -/
theorem computeDerivative_transVel (s : TransformationSequence) :
    computeDerivative s "translational_velocity" = translationalVelocity s := rfl

/-- Dispatch of the angular-velocity kind. -/
theorem computeDerivative_angVel (s : TransformationSequence) :
    computeDerivative s "angular_velocity" = angularVelocity s := rfl

/-- The finite-difference operator written out on a three-sample signal:
second-order one-sided stencils at both boundaries, central difference at
the interior sample. -/
theorem finiteDiff_three (p0 p1 p2 : Vec3) (dt : ℝ) :
    finiteDiff [p0, p1, p2] dt =
      [(1 / (2 * dt)) • ((-3 : ℝ) • p0 + (4 : ℝ) • p1 - p2),
       (1 / (2 * dt)) • (p2 - p0),
       (1 / (2 * dt)) • ((3 : ℝ) • p2 - (4 : ℝ) • p1 + p0)] := by
  unfold finiteDiff
  norm_num [List.range_succ]

/-- The rotation logarithm of the identity rotation is the zero vector. -/
theorem rotLog_one : rotLog (1 : Mat3) = 0 := by
  unfold rotLog
  norm_num [Matrix.trace_one]

/-- The zero 3-vector written out entrywise. -/
theorem vec3_zero : (0 : Vec3) = ![0, 0, 0] := by
  funext i
  fin_cases i <;> rfl

/-- C2: on the concrete `"session1"` scenario, deriving translational
velocity returns (100,0,0) mm/s at every one of the 3 samples (central
difference at the interior sample, same-order one-sided differences at the
boundaries with dt = 1/sample_rate), and deriving angular velocity returns
(0,0,0) rad/s at every sample. -/
theorem session1_concrete_scenario :
    derive session1 "translational_velocity" true =
      .ok [![100, 0, 0], ![100, 0, 0], ![100, 0, 0]] ∧
    derive session1 "angular_velocity" true =
      .ok [![0, 0, 0], ![0, 0, 0], ![0, 0, 0]] := by
  constructor
  · rw [derive_of_not_stored session1 "translational_velocity" "translational_velocity"
        rfl rfl true, computeDerivative_transVel]
    unfold translationalVelocity
    rw [show session1.translations = [![0, 0, 0], ![1, 0, 0], ![2, 0, 0]] from rfl,
      show session1.sampleRate = 100 from rfl, finiteDiff_three]
    refine congrArg Except.ok ?_
    refine List.cons_eq_cons.mpr ⟨?_, List.cons_eq_cons.mpr ⟨?_, List.cons_eq_cons.mpr
      ⟨?_, rfl⟩⟩⟩ <;>
    · funext i
      fin_cases i <;>
        norm_num [Pi.smul_apply, Pi.add_apply, Pi.sub_apply, smul_eq_mul,
          Matrix.cons_val_zero, Matrix.cons_val_one, Matrix.head_cons,
          Matrix.cons_val_two, Matrix.tail_cons]
  · rw [derive_of_not_stored session1 "angular_velocity" "angular_velocity"
        rfl rfl true, computeDerivative_angVel]
    refine congrArg Except.ok ?_
    unfold angularVelocity
    simp [show session1.rotations = [(1 : Mat3), 1, 1] from rfl,
      show session1.poses.length = 3 from rfl, List.range_succ,
      Matrix.transpose_one, rotLog_one, vec3_zero]

/-- Entrywise description of the computed angular velocity: every frame is
the scaled rotation logarithm of a single-sided relative rotation. -/
theorem angularVelocity_getD (s : TransformationSequence)
    (h2 : 2 ≤ s.poses.length) (i : ℕ) (hi : i < s.poses.length) :
    (angularVelocity s).getD i 0 =
      if i + 1 < s.poses.length then
        s.sampleRate •
          rotLog ((s.rotations.getD i 1).transpose * s.rotations.getD (i + 1) 1)
      else
        s.sampleRate •
          rotLog ((s.rotations.getD (s.poses.length - 2) 1).transpose *
            s.rotations.getD (s.poses.length - 1) 1) := by
  unfold angularVelocity
  rw [if_neg (by omega), List.getD_eq_getElem?_getD, List.getElem?_map,
    List.getElem?_range hi]
  rfl

/-- C1: for every sequence of length N ≥ 2 with no stored angular-velocity
field, `derive(sequence, "angular_velocity")` is computed from the relative
rotation between consecutive orientations, `R_rel = R[i]^T * R[i+1]`,
converted to the rotation-vector (logarithm-of-rotation) representation and
scaled by `sample_rate`, the final boundary frame using the adjacent
single-sided relative rotation — a rotation-algebra computation, not a
component-wise finite difference of matrix entries or Euler angles. -/
theorem derive_angular_velocity_relative_rotation (s : TransformationSequence)
    (h2 : 2 ≤ s.poses.length)
    (hns : lookupStored s.derivatives "angular_velocity" = none) (b : Bool) :
    ∃ w, derive s "angular_velocity" b = .ok w ∧
      w.length = s.poses.length ∧
      (∀ i, i + 1 < s.poses.length →
        w.getD i 0 = s.sampleRate •
          rotLog ((s.rotations.getD i 1).transpose * s.rotations.getD (i + 1) 1)) ∧
      w.getD (s.poses.length - 1) 0 = s.sampleRate •
        rotLog ((s.rotations.getD (s.poses.length - 2) 1).transpose *
          s.rotations.getD (s.poses.length - 1) 1) := by
  refine ⟨angularVelocity s, ?_, angularVelocity_length s, ?_, ?_⟩
  · rw [derive_of_not_stored s "angular_velocity" "angular_velocity" rfl hns b,
      computeDerivative_angVel]
  · intro i hi1
    rw [angularVelocity_getD s h2 i (by omega), if_pos hi1]
  · rw [angularVelocity_getD s h2 (s.poses.length - 1) (by omega),
      if_neg (by omega)]

/-- Witness for C1 at the concrete three-pose `"session1"` sequence. -/
theorem derive_angular_velocity_relative_rotation_witness :
    2 ≤ session1.poses.length ∧
      lookupStored session1.derivatives "angular_velocity" = none ∧
      ∃ w, derive session1 "angular_velocity" true = .ok w ∧
        w.length = session1.poses.length ∧
        (∀ i, i + 1 < session1.poses.length →
          w.getD i 0 = session1.sampleRate •
            rotLog ((session1.rotations.getD i 1).transpose *
              session1.rotations.getD (i + 1) 1)) ∧
        w.getD (session1.poses.length - 1) 0 = session1.sampleRate •
          rotLog ((session1.rotations.getD (session1.poses.length - 2) 1).transpose *
            session1.rotations.getD (session1.poses.length - 1) 1) :=
  ⟨by decide, rfl,
    derive_angular_velocity_relative_rotation session1 (by decide) rfl true⟩

/-- C5: in every `compare` call whose requested names all resolve to loaded
groups, the call fails with `ComponentUnavailableError` exactly when no
requested group has the component; otherwise it returns a result from which
every group lacking the component is omitted and in which every group
having it appears. -/
theorem compareComponent_partial_availability
    (groups : List (String × TransformationSequence)) (component : String)
    (names : List String) :
    (compareComponent groups component names = .error .componentUnavailable ↔
      ∀ nm ∈ names, ∀ s, groups.lookup nm = some s →
        groupComponent s component = none) ∧
    ∀ r, compareComponent groups component names = .ok r →
      ∀ nm ∈ names, ∀ s, groups.lookup nm = some s →
        (groupComponent s component = none → ∀ a, (nm, a) ∉ r) ∧
        ∀ a, groupComponent s component = some a → (nm, a) ∈ r := by
  have herr_iff : compareComponent groups component names =
      .error .componentUnavailable ↔
      (names.filterMap fun nm => (groups.lookup nm).bind fun s =>
        (groupComponent s component).map fun a => (nm, a)) = [] := by
    simp only [compareComponent]
    split
    next h =>
      simp only [List.isEmpty_iff] at h
      simp [h]
    next h =>
      simp only [List.isEmpty_iff] at h
      simp [h]
  have hok_eq : ∀ r, compareComponent groups component names = .ok r →
      r = names.filterMap fun nm => (groups.lookup nm).bind fun s =>
        (groupComponent s component).map fun a => (nm, a) := by
    intro r hok
    simp only [compareComponent] at hok
    split at hok
    · cases hok
    · injection hok with h
      exact h.symm
  constructor
  · rw [herr_iff]
    constructor
    · intro hnil nm hmem s hs
      have hfn := List.filterMap_eq_nil_iff.mp hnil nm hmem
      rw [hs] at hfn
      simpa using hfn
    · intro hnone
      refine List.filterMap_eq_nil_iff.mpr fun nm hmem => ?_
      cases hl : groups.lookup nm with
      | none => simp
      | some s => simp [hnone nm hmem s hl]
  · intro r hok nm hmem s hs
    have hr := hok_eq r hok
    subst hr
    constructor
    · intro hnone a hmem'
      obtain ⟨nm', hnm', hf2⟩ := List.mem_filterMap.mp hmem'
      cases hl : groups.lookup nm' with
      | none => rw [hl] at hf2; simp at hf2
      | some s2 =>
        rw [hl] at hf2
        simp only [Option.some_bind, Option.map_eq_some', Prod.mk.injEq] at hf2
        obtain ⟨a', hga, hnmeq, haeq⟩ := hf2
        rw [hnmeq] at hl
        rw [hs] at hl
        injection hl with hseq
        rw [← hseq, hnone] at hga
        cases hga
    · intro a hg
      exact List.mem_filterMap.mpr ⟨nm, hmem, by rw [hs]; simp [hg]⟩

/-- Witness for C5: with group `"A"` having `angular_velocity` and `"B"`
lacking it, comparing over both returns only `"A"`, and comparing over
`"B"` alone raises `ComponentUnavailableError`. -/
theorem compareComponent_partial_availability_witness :
    compareComponent demoGroups "angular_velocity" ["A", "B"] =
      .ok [("A", ComponentArray.vecs [![0, 0, 0], ![0, 0, 0]])] ∧
    compareComponent demoGroups "angular_velocity" ["B"] =
      .error .componentUnavailable := by
  refine ⟨rfl, ?_⟩
  refine (compareComponent_partial_availability demoGroups "angular_velocity"
    ["B"]).1.mpr ?_
  intro nm hmem s hs
  rw [List.mem_singleton] at hmem
  subst hmem
  rw [show demoGroups.lookup "B" = some groupB from rfl] at hs
  injection hs with h
  rw [← h]
  rfl

/-- The trace of the rotation matrix of a unit quaternion. -/
theorem trace_quatToMat (q : Quat)
    (hunit : q.w ^ 2 + q.x ^ 2 + q.y ^ 2 + q.z ^ 2 = 1) :
    Matrix.trace (quatToMat q) = 4 * q.w ^ 2 - 1 := by
  rw [Matrix.trace_fin_three]
  simp only [quatToMat, Matrix.of_apply, Matrix.cons_val_zero, Matrix.cons_val_one,
    Matrix.head_cons, Matrix.cons_val_two, Matrix.tail_cons]
  linear_combination (-4 : ℝ) * hunit

/-- Reconstructing the quaternion from the rotation matrix of a unit
quaternion with positive scalar part reproduces it exactly. -/
theorem matToQuat_quatToMat (q : Quat)
    (hunit : q.w ^ 2 + q.x ^ 2 + q.y ^ 2 + q.z ^ 2 = 1) (hw : 0 < q.w) :
    matToQuat (quatToMat q) = q := by
  obtain ⟨w, x, y, z⟩ := q
  dsimp only at hunit hw
  have hw0 : w ≠ 0 := ne_of_gt hw
  have hsqrt : Real.sqrt ((1 + Matrix.trace (quatToMat ⟨w, x, y, z⟩)) / 4) = w := by
    rw [trace_quatToMat ⟨w, x, y, z⟩ (by dsimp only; exact hunit)]
    dsimp only
    rw [show (1 + (4 * w ^ 2 - 1)) / 4 = w ^ 2 by ring]
    exact Real.sqrt_sq hw.le
  unfold matToQuat
  rw [hsqrt]
  simp only [quatToMat, Matrix.of_apply, Matrix.cons_val_zero, Matrix.cons_val_one,
    Matrix.head_cons, Matrix.cons_val_two, Matrix.tail_cons]
  rw [Quat.mk.injEq]
  refine ⟨rfl, ?_, ?_, ?_⟩ <;> field_simp [hw0] <;> ring

/-- The two-argument arctangent recovers an angle in (-π, π] from its sine
and cosine scaled by any positive factor. -/
theorem atan2_mul_cos_sin {c α : ℝ} (hc : 0 < c) (hα : α ∈ Set.Ioc (-π) π) :
    atan2 (c * Real.sin α) (c * Real.cos α) = α := by
  unfold atan2
  rw [Complex.mk_eq_add_mul_I]
  rw [show ((c * Real.cos α : ℝ) : ℂ) + ((c * Real.sin α : ℝ) : ℂ) * Complex.I =
      (c : ℂ) * ((Real.cos α : ℂ) + (Real.sin α : ℂ) * Complex.I) by push_cast; ring]
  rw [Complex.arg_real_mul _ hc, Complex.ofReal_cos, Complex.ofReal_sin]
  exact Complex.arg_cos_add_sin_mul_I hα

/-- Reconstructing the Euler angles from the rotation matrix of extrinsic
x-y-z Euler angles in the principal range reproduces them exactly. -/
theorem matToEuler_eulerToMat {α β γ : ℝ} (hα : α ∈ Set.Ioc (-π) π)
    (hβ : β ∈ Set.Ioo (-(π / 2)) (π / 2)) (hγ : γ ∈ Set.Ioc (-π) π) :
    matToEuler (eulerToMat α β γ) = ![α, β, γ] := by
  have hcβ : 0 < Real.cos β := Real.cos_pos_of_mem_Ioo hβ
  have e21 : eulerToMat α β γ 2 1 = Real.cos β * Real.sin α := by
    simp [eulerToMat, Matrix.cons_val_zero, Matrix.cons_val_one, Matrix.head_cons,
      Matrix.cons_val_two, Matrix.tail_cons]
  have e22 : eulerToMat α β γ 2 2 = Real.cos β * Real.cos α := by
    simp [eulerToMat, Matrix.cons_val_zero, Matrix.cons_val_one, Matrix.head_cons,
      Matrix.cons_val_two, Matrix.tail_cons]
  have e20 : eulerToMat α β γ 2 0 = -Real.sin β := by
    simp [eulerToMat, Matrix.cons_val_zero, Matrix.cons_val_one, Matrix.head_cons,
      Matrix.cons_val_two, Matrix.tail_cons]
  have e10 : eulerToMat α β γ 1 0 = Real.cos β * Real.sin γ := by
    simp [eulerToMat, Matrix.cons_val_zero, Matrix.cons_val_one, Matrix.head_cons,
      Matrix.cons_val_two, Matrix.tail_cons]
    ring
  have e00 : eulerToMat α β γ 0 0 = Real.cos β * Real.cos γ := by
    simp [eulerToMat, Matrix.cons_val_zero, Matrix.cons_val_one, Matrix.head_cons,
      Matrix.cons_val_two, Matrix.tail_cons]
    ring
  unfold matToEuler
  rw [e21, e22, e20, e10, e00, neg_neg, atan2_mul_cos_sin hcβ hα,
    atan2_mul_cos_sin hcβ hγ,
    Real.arcsin_sin (by linarith [hβ.1]) (by linarith [hβ.2])]

/-- C7: loading with `as_matrices=True` and then reconstructing the native
form reproduces the original rotation and translation exactly (hence within
1e-9 relative tolerance) for each supported storage form — stored matrices
are returned as such, a unit quaternion (positive scalar part) survives the
quaternion → matrix → quaternion round trip, principal-range Euler angles
survive the Euler → matrix → Euler round trip — and storage forms encoding
the same rotation load to identical matrices. -/
theorem load_as_matrices_round_trip (ps : List Pose) (q : Quat) (t : Vec3)
    (α β γ r : ℝ) (u : String) (d : Option (List (String × List Vec3)))
    (hunit : q.w ^ 2 + q.x ^ 2 + q.y ^ 2 + q.z ^ 2 = 1) (hw : 0 < q.w)
    (hα : α ∈ Set.Ioc (-π) π) (hβ : β ∈ Set.Ioo (-(π / 2)) (π / 2))
    (hγ : γ ∈ Set.Ioc (-π) π) :
    (loadGroup ⟨.matrices ps, r, u, d⟩).poses = ps ∧
    ((loadGroup ⟨.quatTrans [(q, t)], r, u, d⟩).poses = [⟨quatToMat q, t⟩] ∧
      matToQuat (quatToMat q) = q) ∧
    ((loadGroup ⟨.eulerTrans [(![α, β, γ], t)], r, u, d⟩).poses =
        [⟨eulerToMat α β γ, t⟩] ∧
      matToEuler (eulerToMat α β γ) = ![α, β, γ]) ∧
    (quatToMat q = eulerToMat α β γ →
      (loadGroup ⟨.quatTrans [(q, t)], r, u, d⟩).poses =
        (loadGroup ⟨.eulerTrans [(![α, β, γ], t)], r, u, d⟩).poses) := by
  refine ⟨rfl, ⟨rfl, matToQuat_quatToMat q hunit hw⟩,
    ⟨rfl, matToEuler_eulerToMat hα hβ hγ⟩, ?_⟩
  intro h
  show [(⟨quatToMat q, t⟩ : Pose)] = [⟨eulerToMat α β γ, t⟩]
  rw [h]

/-- Witness for C7 at the identity rotation in all three storage forms. -/
theorem load_as_matrices_round_trip_witness :
    ((1 : ℝ) ^ 2 + 0 ^ 2 + 0 ^ 2 + 0 ^ 2 = 1) ∧ ((0 : ℝ) < 1) ∧
      matToQuat (quatToMat ⟨1, 0, 0, 0⟩) = ⟨1, 0, 0, 0⟩ ∧
      matToEuler (eulerToMat 0 0 0) = ![0, 0, 0] := by
  have h := load_as_matrices_round_trip [] ⟨1, 0, 0, 0⟩ 0 0 0 0 100 "mm" none
    (by norm_num) (by norm_num)
    (Set.mem_Ioc.mpr ⟨by linarith [Real.pi_pos], by linarith [Real.pi_pos]⟩)
    (Set.mem_Ioo.mpr ⟨by linarith [Real.pi_pos], by linarith [Real.pi_pos]⟩)
    (Set.mem_Ioc.mpr ⟨by linarith [Real.pi_pos], by linarith [Real.pi_pos]⟩)
  exact ⟨by norm_num, by norm_num, h.2.1.2, h.2.2.1.2⟩

/-- C8: every loaded group carries a `DerivativeSet`: a present container
`derivatives` sub-mapping is loaded eagerly and unchanged, and an absent one
yields the empty — not absent — `DerivativeSet`. -/
theorem loadGroup_derivative_set (g : ContainerGroup) :
    (loadGroup g).derivatives = g.derivatives.getD [] ∧
    (g.derivatives = none → (loadGroup g).derivatives = []) ∧
    ∀ ds, g.derivatives = some ds → (loadGroup g).derivatives = ds := by
  refine ⟨rfl, ?_, ?_⟩
  · intro h
    simp [loadGroup, h]
  · intro ds h
    simp [loadGroup, h]

/-- Witness for C8 at a concrete group with no `derivatives` sub-mapping. -/
theorem loadGroup_derivative_set_witness :
    session1Group.derivatives = none ∧ (loadGroup session1Group).derivatives = [] :=
  ⟨rfl, (loadGroup_derivative_set session1Group).2.1 rfl⟩

end
